import Mathlib

/-!
# mc-gateway: handshake parser, router, relay loops and configuration reload

A shallow embedding of `cmd/gateway/main.go`.

* A Go byte is a natural number below 256; arithmetic on `byte` values is
  taken modulo 256 where the source computes in type `byte`.
* A Go string is its sequence of bytes.
* A Go slice is a window on a backing array: it has a length and a capacity,
  and a slice expression `s[lo:hi]` is checked against the *capacity*.
* A run-time panic is the `none` of `Option`.
-/

namespace McGateway

/-! ## Go values -/

/-- A Go `string`: an immutable sequence of bytes (not validated as UTF-8). -/
abbrev GoString := List Nat

/-- Every element is a byte value, that is, lies in `0..255`. -/
def IsBytes (l : List Nat) : Prop := ∀ b ∈ l, b < 256

instance (l : List Nat) : Decidable (IsBytes l) := by
  unfold IsBytes; infer_instance

/-- A Go `[]byte`. `backing` holds the elements of the underlying array from the
slice's first element up to its capacity, so `cap = backing.length`; `len` is
the slice's length. -/
structure Slice where
  backing : List Nat
  len : Nat
  deriving DecidableEq, Repr

namespace Slice

/-- Go's `cap(s)`. -/
def cap (s : Slice) : Nat := s.backing.length

/-- A slice value the Go runtime can produce: `len(s) <= cap(s)` and every
element is a byte. -/
def WF (s : Slice) : Prop := s.len ≤ s.cap ∧ IsBytes s.backing

instance (s : Slice) : Decidable s.WF := by
  unfold WF; infer_instance

/-- Go's `make([]byte, n)`: `n` zero bytes, capacity `n`. -/
def make (n : Nat) : Slice := ⟨List.replicate n 0, n⟩

/-- A slice whose capacity equals its length, holding exactly `l`. -/
def ofList (l : List Nat) : Slice := ⟨l, l.length⟩

/-- The elements `s[0], ..., s[len(s)-1]`; also the bytes of `string(s)`. -/
def toList (s : Slice) : List Nat := s.backing.take s.len

/-- Go's index expression `s[i]`; panics unless `i < len(s)`. -/
def index (s : Slice) (i : Nat) : Option Nat :=
  if i < s.len then s.backing[i]? else none

/-- Go's slice expression `s[lo:hi]`; panics unless `lo <= hi <= cap(s)`. -/
def slice (s : Slice) (lo hi : Nat) : Option Slice :=
  if lo ≤ hi ∧ hi ≤ s.cap then some ⟨s.backing.drop lo, hi - lo⟩ else none

/-- Go's `s[lo:]`, that is `s[lo:len(s)]`. -/
def sliceFrom (s : Slice) (lo : Nat) : Option Slice := s.slice lo s.len

/-- Go's `s[:hi]`, that is `s[0:hi]`. -/
def sliceTo (s : Slice) (hi : Nat) : Option Slice := s.slice 0 hi

end Slice

/-! ## The handshake parser -/

/-- `GetMcHost` of `main.go`. `some h` is a return of the string `h`, `none` a
run-time panic. `host_len` has type `byte`, so `host_len+1` is computed modulo
256, while the comparison is made on `int` values. -/
def GetMcHost (buf : Slice) : Option GoString :=
  if buf.len < 5 then
    some []
  else do
    let buf ← buf.sliceFrom 4
    let host_len ← buf.index 0
    if buf.len + 1 < host_len then
      some []
    else do
      let r ← buf.slice 1 ((host_len + 1) % 256)
      some r.toList

/-! ## Configuration and routing -/

/-- A Go `map[string]string`. `none` is the nil map; `some es` is a map whose
entries are `es`, the first entry for a key being the one the map holds. -/
abbrev GoMap := Option (List (GoString × GoString))

namespace GoMap

/-- The keys of the map; the nil map has none. -/
def keys : GoMap → List GoString
  | none => []
  | some es => es.map Prod.fst

/-- The value stored for a key, when the key is present. -/
def find? : GoMap → GoString → Option GoString
  | none, _ => none
  | some es, k => es.lookup k

/-- Go's two-result index expression `v, ok := m[k]`: the stored value and
`true`, or the zero value `""` and `false` when `k` is no key (also for a nil
map). -/
def get (m : GoMap) (k : GoString) : GoString × Bool :=
  match m.find? k with
  | some v => (v, true)
  | none => ([], false)

end GoMap

/-- Type `Config` of `main.go`. -/
structure Config where
  Port : Int
  Hosts : GoMap
  Default : GoString
  deriving DecidableEq, Repr

/-! ## Connections, events and deferred calls -/

/-- The two connections of a session, named as the variables of
`handleRequest`: `conn` is the accepted (inbound) connection and `client` the
connection dialled to the backend. -/
inductive Conn
  | conn
  | client
  deriving DecidableEq, Repr

/-- Messages passed to the logger. -/
inductive LogMsg
  | errorReadingHostname
  | mapToHost (mc : GoString)
  | errorDialing
  | panicOnHandleRequest
  deriving DecidableEq, Repr

/-- Observable actions of the connection-handling code, in program order.
`err` is `true` when the call returned a non-nil error. -/
inductive Event
  | read (c : Conn) (n : Nat) (err : Bool)
  | write (c : Conn) (data : List Nat) (err : Bool)
  | close (c : Conn)
  | dial (addr : GoString) (err : Bool)
  | log (m : LogMsg)
  | relay
  | wgDone
  deriving DecidableEq, Repr

/-- How a function activation ends: an ordinary return, or a panic that
leaves the function. -/
inductive Exit
  | returned
  | panicked
  deriving DecidableEq, Repr

/-- The deferred calls registered by `handleRequest`. -/
inductive Deferred
  | recoverAndLog
  | close (c : Conn)
  deriving DecidableEq, Repr

/-- The size of every read buffer in `main.go`: `make([]byte, 1024)`. -/
def bufSize : Nat := 1024

/-- What one `Read` call delivers: the bytes that arrived and whether the call
reports an error. -/
structure ReadResult where
  data : List Nat
  err : Bool
  deriving DecidableEq, Repr

/-- The call `n, err := c.Read(buf)`: at most `len(buf)` of the arriving bytes
are stored at the front of `buf`, and `n` is their number. -/
def connRead (buf : Slice) (r : ReadResult) : Slice × Nat :=
  let got := r.data.take buf.len
  (⟨got ++ buf.backing.drop got.length, buf.len⟩, got.length)

/-- Runs a stack of deferred calls, last registered first. A deferred
`Close` records the close; the recovering function stops a panic in flight
and logs it, and does nothing on an ordinary return. -/
def runDeferred : List Deferred → List Event → Exit → List Event × Exit
  | [], t, x => (t, x)
  | Deferred.close c :: ds, t, x => runDeferred ds (t ++ [Event.close c]) x
  | Deferred.recoverAndLog :: ds, t, Exit.panicked =>
      runDeferred ds (t ++ [Event.log LogMsg.panicOnHandleRequest]) Exit.returned
  | Deferred.recoverAndLog :: ds, t, Exit.returned => runDeferred ds t Exit.returned

/-! ## The connection handler -/

/-- The routing decision of `handleRequest` (the lookup in `config.Hosts`
with `config.Default` on a miss). -/
def routeHost (config : Config) (mc_host : GoString) : GoString :=
  let (host, ok) := config.Hosts.get mc_host
  if !ok then config.Default else host

/-- What the surroundings of one `handleRequest` activation decide: what the
first `conn.Read` delivers, whether `net.Dial` fails, and whether the
`client.Write` of the first bytes fails. -/
structure HandlerEnv where
  firstRead : ReadResult
  dialErr : Bool
  writeErr : Bool
  deriving DecidableEq, Repr

/-- The body of `handleRequest` up to the point where it returns or panics:
the events so far, the deferred calls registered (last first) and the way the
body ends. The two relay goroutines together with `wg.Wait()` are the single
event `relay`. -/
def handleRequestBody (config : Config) (env : HandlerEnv) :
    List Event × List Deferred × Exit :=
  let ds := [Deferred.close Conn.conn, Deferred.recoverAndLog]
  let buf := Slice.make bufSize
  let (buf, n) := connRead buf env.firstRead
  let t := [Event.read Conn.conn n env.firstRead.err]
  if env.firstRead.err then
    (t ++ [Event.log LogMsg.errorReadingHostname], ds, Exit.returned)
  else
    match buf.sliceTo n with
    | none => (t, ds, Exit.panicked)
    | some hello =>
      match GetMcHost hello with
      | none => (t, ds, Exit.panicked)
      | some mc_host =>
        let host := routeHost config mc_host
        let t := t ++ [Event.log (LogMsg.mapToHost host), Event.dial host env.dialErr]
        if env.dialErr then
          (t ++ [Event.log LogMsg.errorDialing], ds, Exit.returned)
        else
          let ds := Deferred.close Conn.client :: ds
          match buf.sliceTo n with
          | none => (t, ds, Exit.panicked)
          | some out =>
            (t ++ [Event.write Conn.client out.toList env.writeErr, Event.relay], ds,
              Exit.returned)

/-- `handleRequest` of `main.go`: the body followed by its deferred calls. The
result is the whole trace of the activation and the way it ends. -/
def handleRequest (config : Config) (env : HandlerEnv) : List Event × Exit :=
  let (t, ds, x) := handleRequestBody config env
  runDeferred ds t x

/-- The addresses passed to `net.Dial` in a trace. -/
def dialled : List Event → List GoString
  | [] => []
  | Event.dial a _ :: t => a :: dialled t
  | _ :: t => dialled t

/-- The slice `buf[:n]` that `handleRequest` hands to `GetMcHost` and later
writes to the backend: the first `n <= 1024` bytes that arrived, in a buffer of
capacity 1024 whose remaining bytes are still the zeros of `make`. -/
def firstChunk (r : ReadResult) : Slice :=
  ⟨r.data.take bufSize ++ List.replicate (bufSize - (r.data.take bufSize).length) 0,
    (r.data.take bufSize).length⟩

/-! ## The relay loops -/

/-- The `for` loop shared by `handleRead` and `handleWrite`: read from `src`
into `buf`, return on a read error, otherwise write `buf[:n]` to `dst` and go
round again; the result of `Write` is discarded. `reads i` is what the `i`-th
read delivers and `writeErr i` whether the `i`-th write fails. The first
argument bounds the number of iterations; `none` means the bound was reached
with the loop still running. -/
def copyLoop (src dst : Conn) (reads : Nat → ReadResult) (writeErr : Nat → Bool) :
    Nat → Nat → Slice → List Event → Option (List Event × Exit)
  | 0, _, _, _ => none
  | fuel + 1, i, buf, t =>
    let (buf, n) := connRead buf (reads i)
    let t := t ++ [Event.read src n (reads i).err]
    if (reads i).err then
      some (t, Exit.returned)
    else
      match buf.sliceTo n with
      | none => some (t, Exit.panicked)
      | some out =>
        copyLoop src dst reads writeErr fuel (i + 1) buf
          (t ++ [Event.write dst out.toList (writeErr i)])

/-- The deferred function of `handleRead` and `handleWrite`: `wg.Done()`,
`srv.Close()`, `cli.Close()`, where `srv` is `client` and `cli` is `conn`. -/
def relayDeferred : List Event :=
  [Event.wgDone, Event.close Conn.client, Event.close Conn.conn]

/-- `handleRead(client, conn, &wg)`: copies from the backend connection to the
accepted connection. -/
def handleRead (reads : Nat → ReadResult) (writeErr : Nat → Bool) (fuel : Nat) :
    Option (List Event × Exit) :=
  match copyLoop Conn.client Conn.conn reads writeErr fuel 0 (Slice.make bufSize) [] with
  | none => none
  | some (t, x) => some (t ++ relayDeferred, x)

/-- `handleWrite(client, conn, &wg)`: copies from the accepted connection to
the backend connection. -/
def handleWrite (reads : Nat → ReadResult) (writeErr : Nat → Bool) (fuel : Nat) :
    Option (List Event × Exit) :=
  match copyLoop Conn.conn Conn.client reads writeErr fuel 0 (Slice.make bufSize) [] with
  | none => none
  | some (t, x) => some (t ++ relayDeferred, x)

/-- Whether an event is a `Read` or a `Write` on a connection. -/
def Event.isIO : Event → Bool
  | Event.read _ _ _ => true
  | Event.write _ _ _ => true
  | _ => false

/-- Whether an event is a `Read` or a `Write` that reported an error. -/
def Event.isFailedIO : Event → Bool
  | Event.read _ _ err => err
  | Event.write _ _ err => err
  | _ => false

/-- Whether a trace performs no `Read` and no `Write` after its first failing
`Read` or `Write`. -/
def stopsAtFirstFailure : List Event → Bool
  | [] => true
  | e :: t => if e.isFailedIO then t.all (fun e => !e.isIO) else stopsAtFirstFailure t

/-- The events of the first `k` rounds of a copy loop when none of the first
`k` reads fails: each round reads at most 1024 bytes and writes them out. -/
def copied (src dst : Conn) (reads : Nat → ReadResult) (writeErr : Nat → Bool) :
    Nat → List Event
  | 0 => []
  | k + 1 =>
    copied src dst reads writeErr k ++
      [Event.read src ((reads k).data.take bufSize).length false,
       Event.write dst ((reads k).data.take bufSize) (writeErr k)]

/-! ## Loading the configuration

`loadConfig` opens `config.json`, reads it and hands the bytes to
`json.Unmarshal(byteValue, &config)`, which decodes *into the existing*
package-level `config`. The decoder is the Go standard library's; it is
modelled here on a parsed document, following the documented behaviour of
`encoding/json`:

* the input is checked for validity first, and an invalid input changes nothing;
* object keys are matched to the struct fields by their `json` names, exactly or
  case-insensitively, and unknown keys are skipped;
* a JSON value that does not fit its target (for example a string, or a number
  with a fraction, for the `int` field) is skipped, decoding goes on, and the
  earliest such mismatch is the error returned;
* `null` leaves an `int` or `string` untouched and sets a map to nil;
* a JSON object decoded into a non-nil map is added to the entries the map
  already has; a nil map is allocated first.
-/

/-- A JSON number literal as `strconv.ParseInt(s, 10, 64)` sees it: an integer
literal with its value, or a literal with a fraction or an exponent. -/
inductive JsonNumber
  | int (z : Int)
  | nonInt
  deriving DecidableEq, Repr

/-- A parsed JSON document; strings and keys are the unquoted bytes. -/
inductive Json
  | null
  | bool (b : Bool)
  | number (n : JsonNumber)
  | string (s : GoString)
  | array (xs : List Json)
  | object (members : List (GoString × Json))

/-- Why `loadConfig` returned a non-nil error. -/
inductive LoadError
  | openFailed
  | readFailed
  | invalidJson
  | typeMismatch
  deriving DecidableEq, Repr

/-- What the file system delivers to `loadConfig`: `os.Open` fails, or
`io.ReadAll` fails, or the bytes read, which are either no valid JSON (`none`)
or the JSON document they spell. -/
inductive FileResult
  | openError
  | readError
  | content (doc : Option Json)

/-- The three fields of `Config`. -/
inductive Field
  | port
  | hosts
  | default
  deriving DecidableEq, Repr

/-- The case folding `encoding/json` applies to a key before comparing it with
the field names: ASCII letters are upper-cased, and the two non-ASCII
characters that fold to an ASCII letter, U+017F (bytes `C5 BF`) and U+212A
(bytes `E2 84 AA`), become `S` and `K`. Bytes of other non-ASCII characters are
kept, which does not change whether the result equals a folded field name. -/
def foldName : List Nat → List Nat
  | [] => []
  | 0xC5 :: 0xBF :: rest => 0x53 :: foldName rest
  | 0xE2 :: 0x84 :: 0xAA :: rest => 0x4B :: foldName rest
  | c :: rest => (if 97 ≤ c ∧ c ≤ 122 then c - 32 else c) :: foldName rest

/-- The field a key of the top-level object decodes into: the one tagged
`json:"port"`, `json:"hosts"` or `json:"default"` whose name equals the key
up to case folding, if any. -/
def fieldOf (key : GoString) : Option Field :=
  if foldName key = [80, 79, 82, 84] then some Field.port
  else if foldName key = [72, 79, 83, 84, 83] then some Field.hosts
  else if foldName key = [68, 69, 70, 65, 85, 76, 84] then some Field.default
  else none

/-- One store performed by the decoder on the package-level `config`. -/
inductive Store
  | setPort (z : Int)
  | setDefault (s : GoString)
  | setHostsNil
  | makeHostsIfNil
  | setHost (k v : GoString)
  deriving DecidableEq, Repr

/-- Go's `m[k] = v` on a non-nil map. -/
def GoMap.set (m : GoMap) (k v : GoString) : GoMap :=
  match m with
  | none => none
  | some es => some ((k, v) :: es)

/-- The effect of one store on the configuration. -/
def Store.apply (c : Config) : Store → Config
  | Store.setPort z => { c with Port := z }
  | Store.setDefault s => { c with Default := s }
  | Store.setHostsNil => { c with Hosts := none }
  | Store.makeHostsIfNil =>
      match c.Hosts with
      | none => { c with Hosts := some [] }
      | some _ => c
  | Store.setHost k v => { c with Hosts := c.Hosts.set k v }

/-- The stores of a list, performed in order. -/
def applyStores (c : Config) (ss : List Store) : Config := ss.foldl Store.apply c

/-- Decoding one member of a JSON object into the `map[string]string`: the
element is decoded into a fresh `""` and stored under the key; a value that is
not a string leaves the element `""`, and unless it is `null` it is a type
mismatch. -/
def decodeHostEntry : GoString × Json → Store × Bool
  | (k, Json.string s) => (Store.setHost k s, false)
  | (k, Json.null) => (Store.setHost k [], false)
  | (k, _) => (Store.setHost k [], true)

/-- Decoding a JSON value into one field: the stores performed and whether
the value was a type mismatch. The `int` of the source is taken to be 64 bits
wide. -/
def decodeField : Field → Json → List Store × Bool
  | Field.port, Json.number (JsonNumber.int z) =>
      if -(2 : Int) ^ 63 ≤ z ∧ z < (2 : Int) ^ 63 then ([Store.setPort z], false) else ([], true)
  | Field.port, Json.null => ([], false)
  | Field.port, _ => ([], true)
  | Field.default, Json.string s => ([Store.setDefault s], false)
  | Field.default, Json.null => ([], false)
  | Field.default, _ => ([], true)
  | Field.hosts, Json.object ms =>
      (Store.makeHostsIfNil :: ms.map (fun m => (decodeHostEntry m).1),
        ms.any (fun m => (decodeHostEntry m).2))
  | Field.hosts, Json.null => ([Store.setHostsNil], false)
  | Field.hosts, _ => ([], true)

/-- Decoding one member of the top-level object. -/
def decodeMember (m : GoString × Json) : List Store × Bool :=
  match fieldOf m.1 with
  | none => ([], false)
  | some f => decodeField f m.2

/-- Decoding a valid document into `*Config`: the stores performed, in order,
and whether some value was a type mismatch. Only an object has members to
decode; `null` is a no-op and any other value is a type mismatch. -/
def decodeDocument : Json → List Store × Bool
  | Json.object ms =>
      ((ms.map (fun m => (decodeMember m).1)).flatten, ms.any (fun m => (decodeMember m).2))
  | Json.null => ([], false)
  | _ => ([], true)

/-- The call `json.Unmarshal(byteValue, &config)` on the document the bytes
spell (`none`: the bytes are no valid JSON): the configuration afterwards and
the error returned. -/
def unmarshal (doc : Option Json) (config : Config) : Config × Option LoadError :=
  match doc with
  | none => (config, some LoadError.invalidJson)
  | some j =>
      (applyStores config (decodeDocument j).1,
        if (decodeDocument j).2 then some LoadError.typeMismatch else none)

/-- `loadConfig` of `main.go`: the package-level `config` afterwards and the
error returned (`none` for nil). -/
def loadConfig (file : FileResult) (config : Config) : Config × Option LoadError :=
  match file with
  | FileResult.openError => (config, some LoadError.openFailed)
  | FileResult.readError => (config, some LoadError.readFailed)
  | FileResult.content doc => unmarshal doc config

/-- One reload attempt of `watchConfig`: `loadConfig` is called and its error,
if any, is only logged. The configuration afterwards. -/
def reload (file : FileResult) (config : Config) : Config := (loadConfig file config).1

/-- The key `"port"`. -/
def portKey : GoString := [112, 111, 114, 116]

/-- The key `"hosts"`. -/
def hostsKey : GoString := [104, 111, 115, 116, 115]

/-- The key `"default"`. -/
def defaultKey : GoString := [100, 101, 102, 97, 117, 108, 116]

/-- A configuration document of the documented shape: an object in which each
of `port` (an integer), `hosts` (an object of strings) and `default` (a
string) is either present, with its value, or absent. -/
structure Document where
  port : Option Int
  hosts : Option (List (GoString × GoString))
  default : Option GoString
  deriving DecidableEq, Repr

/-- The JSON a `Document` spells, its members in the order `port`, `hosts`,
`default`. -/
def Document.toJson (d : Document) : Json :=
  Json.object (
    (match d.port with
      | some z => [(portKey, Json.number (JsonNumber.int z))]
      | none => []) ++
    (match d.hosts with
      | some es => [(hostsKey, Json.object (es.map (fun e => (e.1, Json.string e.2))))]
      | none => []) ++
    (match d.default with
      | some s => [(defaultKey, Json.string s)]
      | none => []))

/-! ## A reload interleaved with a routing decision

The handler reads `config.Hosts[mc_host]` and then, on a miss, `config.Default`,
with no synchronisation; a reload performs its stores on the same `config` one
after the other. An interleaving is given by the number `i` of stores already
performed when the handler reads `config.Hosts`, and the number `j` performed
when it reads `config.Default`. -/

/-- The routing decision of `handleRequest` when its read of `config.Hosts`
comes after the first `i` stores of a reload and its read of `config.Default`
after the first `j`. -/
def interleavedRoute (old : Config) (stores : List Store) (i j : Nat)
    (mc_host : GoString) : GoString :=
  let (host, ok) := (applyStores old (stores.take i)).Hosts.get mc_host
  if !ok then (applyStores old (stores.take j)).Default else host

/-! ## Facts about the parser -/

/-- A buffer shorter than 5 bytes yields the empty string. -/
theorem GetMcHost_short (buf : Slice) (h : buf.len < 5) : GetMcHost buf = some [] := by
  simp [GetMcHost, h]

/-- What `GetMcHost` does on a buffer of at least 5 bytes, where `hl` is the
length byte `buf[4]`: the empty string when `len(buf) - 3 < hl`; otherwise the
slice expression `buf[1 : hl+1]` on the rest, whose upper bound is taken
modulo 256 and is checked against the capacity, not the length. -/
theorem GetMcHost_long (buf : Slice) (hl : Nat) (h5 : 5 ≤ buf.len) (hcap : buf.len ≤ buf.cap)
    (h4 : buf.backing[4]? = some hl) :
    GetMcHost buf =
      if buf.len - 4 + 1 < hl then some []
      else if 1 ≤ (hl + 1) % 256 ∧ (hl + 1) % 256 ≤ buf.cap - 4 then
        some ((buf.backing.drop 5).take ((hl + 1) % 256 - 1))
      else none := by
  have h1 : ¬ buf.len < 5 := by omega
  have h2 : 4 ≤ buf.len := by omega
  have h3 : 0 < buf.len - 4 := by omega
  unfold Slice.cap at hcap
  simp only [GetMcHost, h1, if_false, Slice.sliceFrom, Slice.slice, Slice.cap, h2, hcap,
    and_self, if_true, Option.bind_eq_bind, Option.some_bind, Slice.index, h3,
    List.getElem?_drop, Nat.add_zero, h4, List.length_drop, Slice.toList, List.drop_drop]
  split
  · rfl
  · split <;> simp_all

/-- A well-formed handshake `p ++ [n] ++ h` with a 4-byte `p` and `n = len(h)`
at most 254 yields exactly `h`, whatever follows in the backing array. -/
theorem GetMcHost_wellformed (p h rest : List Nat) (hp : p.length = 4) (hh : h.length ≤ 254) :
    GetMcHost ⟨p ++ h.length :: h ++ rest, 5 + h.length⟩ = some h := by
  obtain ⟨a, b, c, d, rfl⟩ : ∃ a b c d, p = [a, b, c, d] := by
    match p, hp with
    | [a, b, c, d], _ => exact ⟨a, b, c, d, rfl⟩
  rw [GetMcHost_long _ h.length (by simp) (by simp [Slice.cap]; omega) (by simp)]
  have e : (h.length + 1) % 256 = h.length + 1 := Nat.mod_eq_of_lt (by omega)
  have c1 : ¬ (5 + h.length - 4 + 1 < h.length) := by omega
  simp [e, c1, Slice.cap]

/-- A handshake whose length byte is 255 makes `GetMcHost` panic as soon as at
least 254 bytes follow the 4-byte start: `host_len+1` wraps to 0 in type `byte`
and the slice expression becomes `buf[1:0]`. -/
theorem GetMcHost_len255_panics (buf : Slice) (h : 258 ≤ buf.len) (hcap : buf.len ≤ buf.cap)
    (h4 : buf.backing[4]? = some 255) : GetMcHost buf = none := by
  rw [GetMcHost_long buf 255 (by omega) hcap h4]
  have c1 : ¬ (buf.len - 4 + 1 < 255) := by omega
  simp [c1]

/-! ## Facts about the handler -/

theorem connRead_make (r : ReadResult) :
    connRead (Slice.make bufSize) r =
      (⟨r.data.take bufSize ++ List.replicate (bufSize - (r.data.take bufSize).length) 0, bufSize⟩,
        (r.data.take bufSize).length) := by
  simp [connRead, Slice.make]

theorem take_bufSize_length_le (l : List Nat) : (l.take bufSize).length ≤ bufSize := by
  simp [List.length_take]

theorem sliceTo_firstRead (r : ReadResult) :
    Slice.sliceTo
        ⟨r.data.take bufSize ++ List.replicate (bufSize - (r.data.take bufSize).length) 0, bufSize⟩
        (r.data.take bufSize).length = some (firstChunk r) := by
  have h := take_bufSize_length_le r.data
  simp only [Slice.sliceTo, Slice.slice, Slice.cap, firstChunk, List.length_append,
    List.length_replicate, List.drop_zero, Nat.sub_zero, Nat.zero_le, true_and]
  rw [if_pos (by omega)]

theorem firstChunk_toList (r : ReadResult) : (firstChunk r).toList = r.data.take bufSize := by
  simp [firstChunk, Slice.toList]

/-- The body of `handleRequest` in terms of `firstChunk`. -/
theorem handleRequestBody_eq (config : Config) (env : HandlerEnv) :
    handleRequestBody config env =
      let ds := [Deferred.close Conn.conn, Deferred.recoverAndLog]
      let t := [Event.read Conn.conn (env.firstRead.data.take bufSize).length env.firstRead.err]
      if env.firstRead.err then
        (t ++ [Event.log LogMsg.errorReadingHostname], ds, Exit.returned)
      else
        match GetMcHost (firstChunk env.firstRead) with
        | none => (t, ds, Exit.panicked)
        | some mc_host =>
          let host := routeHost config mc_host
          let t := t ++ [Event.log (LogMsg.mapToHost host), Event.dial host env.dialErr]
          if env.dialErr then
            (t ++ [Event.log LogMsg.errorDialing], ds, Exit.returned)
          else
            (t ++ [Event.write Conn.client (env.firstRead.data.take bufSize) env.writeErr,
                Event.relay],
              Deferred.close Conn.client :: ds, Exit.returned) := by
  simp only [handleRequestBody, connRead_make, sliceTo_firstRead, firstChunk_toList]

/-- A key is present exactly when the lookup finds a value. -/
theorem GoMap.mem_keys_iff (m : GoMap) (k : GoString) :
    k ∈ m.keys ↔ (m.find? k).isSome = true := by
  cases m with
  | none => simp [GoMap.keys, GoMap.find?]
  | some es =>
    induction es with
    | nil => simp [GoMap.keys, GoMap.find?, List.lookup]
    | cons e es ih =>
      obtain ⟨a, b⟩ := e
      by_cases hk : k = a
      · subst hk
        simp [GoMap.keys, GoMap.find?, List.lookup]
      · have hne : (k == a) = false := by simpa using hk
        simp only [GoMap.keys, GoMap.find?, List.map_cons, List.mem_cons, List.lookup, hne, hk,
          false_or] at ih ⊢
        exact ih

/-- A value found for a key belongs to an entry of the map with that key. -/
theorem GoMap.find?_mem (es : List (GoString × GoString)) (k v : GoString)
    (h : GoMap.find? (some es) k = some v) : (k, v) ∈ es := by
  induction es with
  | nil => simp [GoMap.find?, List.lookup] at h
  | cons e es ih =>
    obtain ⟨a, b⟩ := e
    by_cases hk : k = a
    · subst hk
      simp [GoMap.find?, List.lookup] at h
      simp [h]
    · have hne : (k == a) = false := by simpa using hk
      simp only [GoMap.find?, List.lookup, hne] at h ih
      exact List.mem_cons_of_mem _ (ih h)

/-- The trace and exit of `handleRequest` when the first read fails. -/
theorem handleRequest_read_error (config : Config) (env : HandlerEnv)
    (h : env.firstRead.err = true) :
    handleRequest config env =
      ([Event.read Conn.conn (env.firstRead.data.take bufSize).length true,
        Event.log LogMsg.errorReadingHostname, Event.close Conn.conn], Exit.returned) := by
  simp [handleRequest, handleRequestBody_eq, h, runDeferred]

/-- The trace and exit of `handleRequest` when the parser panics. -/
theorem handleRequest_parser_fault (config : Config) (env : HandlerEnv)
    (h : env.firstRead.err = false) (hp : GetMcHost (firstChunk env.firstRead) = none) :
    handleRequest config env =
      ([Event.read Conn.conn (env.firstRead.data.take bufSize).length false,
        Event.close Conn.conn, Event.log LogMsg.panicOnHandleRequest], Exit.returned) := by
  simp [handleRequest, handleRequestBody_eq, h, hp, runDeferred]

/-- The trace and exit of `handleRequest` when the dial fails. -/
theorem handleRequest_dial_error (config : Config) (env : HandlerEnv) (mc : GoString)
    (h : env.firstRead.err = false) (hp : GetMcHost (firstChunk env.firstRead) = some mc)
    (hd : env.dialErr = true) :
    handleRequest config env =
      ([Event.read Conn.conn (env.firstRead.data.take bufSize).length false,
        Event.log (LogMsg.mapToHost (routeHost config mc)),
        Event.dial (routeHost config mc) true,
        Event.log LogMsg.errorDialing, Event.close Conn.conn], Exit.returned) := by
  simp [handleRequest, handleRequestBody_eq, h, hp, hd, runDeferred]

/-- The trace and exit of `handleRequest` when the relay is reached and ends. -/
theorem handleRequest_relayed (config : Config) (env : HandlerEnv) (mc : GoString)
    (h : env.firstRead.err = false) (hp : GetMcHost (firstChunk env.firstRead) = some mc)
    (hd : env.dialErr = false) :
    handleRequest config env =
      ([Event.read Conn.conn (env.firstRead.data.take bufSize).length false,
        Event.log (LogMsg.mapToHost (routeHost config mc)),
        Event.dial (routeHost config mc) false,
        Event.write Conn.client (env.firstRead.data.take bufSize) env.writeErr,
        Event.relay, Event.close Conn.client, Event.close Conn.conn], Exit.returned) := by
  simp [handleRequest, handleRequestBody_eq, h, hp, hd, runDeferred]

/-- The four ways through `handleRequest`. -/
theorem handleRequest_cases (env : HandlerEnv) :
    (env.firstRead.err = true) ∨
    (env.firstRead.err = false ∧ GetMcHost (firstChunk env.firstRead) = none) ∨
    (∃ mc, env.firstRead.err = false ∧ GetMcHost (firstChunk env.firstRead) = some mc ∧
      env.dialErr = true) ∨
    (∃ mc, env.firstRead.err = false ∧ GetMcHost (firstChunk env.firstRead) = some mc ∧
      env.dialErr = false) := by
  cases h : env.firstRead.err
  · cases hp : GetMcHost (firstChunk env.firstRead) with
    | none => simp
    | some mc => cases hd : env.dialErr <;> simp
  · simp

/-- The slice handed to the parser is a well-formed slice of bytes when the
bytes that arrived are bytes. -/
theorem firstChunk_WF (r : ReadResult) (h : IsBytes r.data) : (firstChunk r).WF := by
  constructor
  · simp [firstChunk, Slice.cap]
  · intro b hb
    simp only [firstChunk, List.mem_append, List.mem_replicate] at hb
    rcases hb with hb | ⟨_, rfl⟩
    · exact h b (List.mem_of_mem_take hb)
    · decide

/-! ## The parser at its boundary -/

set_option maxRecDepth 100000 in
/-- C1: on the 5-byte buffer `00 00 00 00 01` the length byte declares one byte
while none remains after it. The guard `len(buf)+1 < int(host_len)` is
`2 < 1`, so the code goes on to `buf[1:2]`: a slice-bounds panic when the
capacity equals the length, and, on the 1024-byte read buffer of
`handleRequest`, the one-byte string `"\x00"` taken from beyond the received
bytes. In neither case is the empty string returned. -/
theorem GetMcHost_declared_length_one_past_end :
    (Slice.ofList [0, 0, 0, 0, 1]).WF ∧
    GetMcHost (Slice.ofList [0, 0, 0, 0, 1]) = none ∧
    (firstChunk ⟨[0, 0, 0, 0, 1], false⟩).WF ∧
    (firstChunk ⟨[0, 0, 0, 0, 1], false⟩).toList = [0, 0, 0, 0, 1] ∧
    GetMcHost (firstChunk ⟨[0, 0, 0, 0, 1], false⟩) = some [0] :=
  ⟨by decide, by decide, firstChunk_WF _ (by decide), by decide, by decide⟩

set_option maxRecDepth 100000 in
/-- C2: `GetMcHost` is not fault-free and may return bytes from outside the
buffer. A 258-byte buffer whose length byte is 255 passes the guard
(`255 < 255` is false), `host_len+1` wraps to 0 in type `byte`, and `buf[1:0]`
panics, also on the read buffer of `handleRequest`. On the 6-byte buffer
`00 00 00 00 02 07` in a longer backing array the two bytes returned include
the byte at index 6, which is no byte of the buffer. -/
theorem GetMcHost_faults_and_reads_outside :
    (Slice.ofList ([0, 0, 0, 0, 255] ++ List.replicate 253 97)).WF ∧
    GetMcHost (Slice.ofList ([0, 0, 0, 0, 255] ++ List.replicate 253 97)) = none ∧
    (firstChunk ⟨[0, 0, 0, 0, 255] ++ List.replicate 253 97, false⟩).WF ∧
    GetMcHost (firstChunk ⟨[0, 0, 0, 0, 255] ++ List.replicate 253 97, false⟩) = none ∧
    Slice.WF ⟨[0, 0, 0, 0, 2, 7, 9, 9], 6⟩ ∧
    Slice.toList ⟨[0, 0, 0, 0, 2, 7, 9, 9], 6⟩ = [0, 0, 0, 0, 2, 7] ∧
    GetMcHost ⟨[0, 0, 0, 0, 2, 7, 9, 9], 6⟩ = some [7, 9] :=
  ⟨by decide, by decide, firstChunk_WF _ (by decide), by decide, by decide, by decide,
    by decide⟩

set_option maxRecDepth 100000 in
/-- C3: for the well-formed handshake with a 4-byte start, length byte 255 and
a 255-byte hostname, `GetMcHost` panics instead of returning the hostname:
`host_len+1` is computed in type `byte` and is 0, so the slice expression is
`buf[1:0]`. This holds whether or not the backing array is longer. -/
theorem GetMcHost_hostname_of_255_bytes_panics :
    (Slice.ofList ([1, 2, 3, 4] ++ 255 :: List.replicate 255 97)).WF ∧
    GetMcHost (Slice.ofList ([1, 2, 3, 4] ++ 255 :: List.replicate 255 97)) = none ∧
    (firstChunk ⟨[1, 2, 3, 4] ++ 255 :: List.replicate 255 97, false⟩).WF ∧
    GetMcHost (firstChunk ⟨[1, 2, 3, 4] ++ 255 :: List.replicate 255 97, false⟩) = none :=
  ⟨by decide, by decide, firstChunk_WF _ (by decide), by decide⟩

/-! ## Routing -/

/-- The addresses dialled by `handleRequest`: none after a read error or a
parser panic, otherwise the routed address of the parsed hostname. -/
theorem handleRequest_dialled (config : Config) (env : HandlerEnv) :
    dialled (handleRequest config env).1 =
      if env.firstRead.err then []
      else match GetMcHost (firstChunk env.firstRead) with
        | none => []
        | some mc => [routeHost config mc] := by
  rcases handleRequest_cases env with h | ⟨h, hp⟩ | ⟨mc, h, hp, hd⟩ | ⟨mc, h, hp, hd⟩
  · rw [handleRequest_read_error config env h]; simp [h, dialled]
  · rw [handleRequest_parser_fault config env h hp]; simp [h, hp, dialled]
  · rw [handleRequest_dial_error config env mc h hp hd]; simp [h, hp, dialled]
  · rw [handleRequest_relayed config env mc h hp hd]; simp [h, hp, dialled]

/-- C4: the routing decision of `handleRequest` is an exact-match lookup with
fallback. The routed address is `Hosts[host]` when `host` is a key of `Hosts`
and `Default` otherwise; for the empty hostname this reads the same; with a
nil `Hosts` it is `Default`; and the address `handleRequest` dials, when it
dials, is the routed address of the hostname the parser returned. -/
theorem routeHost_exact_match_or_default (config : Config) (env : HandlerEnv)
    (host : GoString) :
    routeHost config host =
        (if host ∈ config.Hosts.keys then (config.Hosts.get host).1 else config.Default) ∧
    routeHost config [] =
        (if [] ∈ config.Hosts.keys then (config.Hosts.get []).1 else config.Default) ∧
    routeHost ⟨config.Port, none, config.Default⟩ host = config.Default ∧
    (∀ v, config.Hosts.find? host = some v →
        routeHost config host = v ∧ ∃ es, config.Hosts = some es ∧ (host, v) ∈ es) ∧
    (dialled (handleRequest config env).1 = [] ∨
      ∃ mc, GetMcHost (firstChunk env.firstRead) = some mc ∧
        dialled (handleRequest config env).1 = [routeHost config mc]) := by
  have key : ∀ h : GoString, routeHost config h =
      (if h ∈ config.Hosts.keys then (config.Hosts.get h).1 else config.Default) := by
    intro h
    have hm := GoMap.mem_keys_iff config.Hosts h
    cases hf : config.Hosts.find? h with
    | none =>
      have hk : h ∉ config.Hosts.keys := by rw [hm, hf]; simp
      simp [routeHost, GoMap.get, hf, hk]
    | some v =>
      have hk : h ∈ config.Hosts.keys := by rw [hm, hf]; simp
      simp [routeHost, GoMap.get, hf, hk]
  refine ⟨key host, key [], ?_, ?_, ?_⟩
  · simp [routeHost, GoMap.get, GoMap.find?]
  · intro v hv
    refine ⟨by simp [routeHost, GoMap.get, hv], ?_⟩
    cases hH : config.Hosts with
    | none => rw [hH] at hv; simp [GoMap.find?] at hv
    | some es => rw [hH] at hv; exact ⟨es, rfl, GoMap.find?_mem es host v hv⟩
  · rw [handleRequest_dialled]
    cases env.firstRead.err
    · cases hp : GetMcHost (firstChunk env.firstRead) with
      | none => simp
      | some mc => simp
    · simp

/-- C7 (as stated, refuted): the first read delivers the three bytes
`01 02 03` without error, the table has no entry for the empty hostname, and
`handleRequest` dials the default backend. -/
theorem handleRequest_short_first_read_dials :
    handleRequest ⟨25565, some [([112], [49])], [50]⟩ ⟨⟨[1, 2, 3], false⟩, false, false⟩ =
      ([Event.read Conn.conn 3 false, Event.log (LogMsg.mapToHost [50]),
        Event.dial [50] false, Event.write Conn.client [1, 2, 3] false, Event.relay,
        Event.close Conn.client, Event.close Conn.conn], Exit.returned) := by
  rw [handleRequest_relayed _ _ [] rfl (GetMcHost_short _ (by decide)) rfl]
  decide

/-- C7 (amended): when the first read delivers fewer than 5 bytes without a
read error, the parser returns the empty hostname and `handleRequest` performs
exactly one `net.Dial`, to the routed address of the empty hostname
(`Hosts[""]` when present, else `Default`). When that dial fails it logs the
error and returns after closing the accepted connection. When it succeeds it
writes the bytes read to the backend and runs the relay; the backend
connection and the accepted connection are closed, in this order, only after
the relay has ended (the trace is that of an activation whose relay ends). -/
theorem handleRequest_short_first_read (config : Config) (env : HandlerEnv)
    (herr : env.firstRead.err = false) (hlen : env.firstRead.data.length < 5) :
    GetMcHost (firstChunk env.firstRead) = some [] ∧
    dialled (handleRequest config env).1 = [routeHost config []] ∧
    (env.dialErr = true →
      handleRequest config env =
        ([Event.read Conn.conn env.firstRead.data.length false,
          Event.log (LogMsg.mapToHost (routeHost config [])),
          Event.dial (routeHost config []) true,
          Event.log LogMsg.errorDialing, Event.close Conn.conn], Exit.returned)) ∧
    (env.dialErr = false →
      handleRequest config env =
        ([Event.read Conn.conn env.firstRead.data.length false,
          Event.log (LogMsg.mapToHost (routeHost config [])),
          Event.dial (routeHost config []) false,
          Event.write Conn.client env.firstRead.data env.writeErr,
          Event.relay, Event.close Conn.client, Event.close Conn.conn], Exit.returned)) := by
  have hp : GetMcHost (firstChunk env.firstRead) = some [] := by
    apply GetMcHost_short
    simp only [firstChunk, List.length_take]
    omega
  have ht : env.firstRead.data.take bufSize = env.firstRead.data := by
    apply List.take_of_length_le
    simp only [bufSize]
    omega
  refine ⟨hp, ?_, ?_, ?_⟩
  · rw [handleRequest_dialled]; simp [herr, hp]
  · intro hd
    rw [handleRequest_dial_error config env [] herr hp hd, ht]
  · intro hd
    rw [handleRequest_relayed config env [] herr hp hd, ht]

/-- Witness of `handleRequest_short_first_read`: three bytes, no read error, a
failing dial. -/
theorem handleRequest_short_first_read_witness :
    GetMcHost (firstChunk ⟨[1, 2, 3], false⟩) = some [] ∧
    dialled (handleRequest ⟨25565, none, [50]⟩ ⟨⟨[1, 2, 3], false⟩, true, false⟩).1 =
      [routeHost ⟨25565, none, [50]⟩ []] ∧
    handleRequest ⟨25565, none, [50]⟩ ⟨⟨[1, 2, 3], false⟩, true, false⟩ =
      ([Event.read Conn.conn 3 false,
        Event.log (LogMsg.mapToHost (routeHost ⟨25565, none, [50]⟩ [])),
        Event.dial (routeHost ⟨25565, none, [50]⟩ []) true,
        Event.log LogMsg.errorDialing, Event.close Conn.conn], Exit.returned) :=
  have h := handleRequest_short_first_read ⟨25565, none, [50]⟩
    ⟨⟨[1, 2, 3], false⟩, true, false⟩ rfl (by decide)
  ⟨h.1, h.2.1, h.2.2.1 rfl⟩

/-! ## Fault containment -/

set_option maxRecDepth 100000 in
/-- A first read on which the parser panics inside `handleRequest`: 258 bytes
with length byte 255. The panic is recovered after `conn.Close()` has run. -/
theorem handleRequest_recovers_parser_panic (config : Config) :
    handleRequest config
        ⟨⟨[0, 0, 0, 0, 255] ++ List.replicate 253 97, false⟩, false, false⟩ =
      ([Event.read Conn.conn 258 false, Event.close Conn.conn,
        Event.log LogMsg.panicOnHandleRequest], Exit.returned) := by
  have hp : GetMcHost (firstChunk ⟨[0, 0, 0, 0, 255] ++ List.replicate 253 97, false⟩) =
      none := by decide
  rw [handleRequest_parser_fault config _ rfl hp]
  have hn : (List.take bufSize ([0, 0, 0, 0, 255] ++ List.replicate 253 97)).length = 258 := by
    decide
  simp only [hn]

/-- C10: no panic leaves `handleRequest` and the accepted connection is closed
on every way out. Whatever the first read delivers and whatever the dial does,
the activation ends by returning, `conn.Close()` is in its trace, and the trace
is the one of a first-read error, of a recovered parser panic, of a dial error
or of a finished relay. -/
theorem handleRequest_contains_faults (config : Config) (env : HandlerEnv) :
    (handleRequest config env).2 = Exit.returned ∧
    Event.close Conn.conn ∈ (handleRequest config env).1 ∧
    ((env.firstRead.err = true ∧
        (handleRequest config env).1.getLast? = some (Event.close Conn.conn)) ∨
      (env.firstRead.err = false ∧ GetMcHost (firstChunk env.firstRead) = none ∧
        (handleRequest config env).1 =
          [Event.read Conn.conn (env.firstRead.data.take bufSize).length false,
            Event.close Conn.conn, Event.log LogMsg.panicOnHandleRequest]) ∨
      (env.firstRead.err = false ∧ env.dialErr = true ∧
        (handleRequest config env).1.getLast? = some (Event.close Conn.conn)) ∨
      (env.firstRead.err = false ∧ env.dialErr = false ∧
        (handleRequest config env).1.getLast? = some (Event.close Conn.conn))) := by
  rcases handleRequest_cases env with h | ⟨h, hp⟩ | ⟨mc, h, hp, hd⟩ | ⟨mc, h, hp, hd⟩
  · rw [handleRequest_read_error config env h]
    exact ⟨rfl, by simp, Or.inl ⟨h, rfl⟩⟩
  · rw [handleRequest_parser_fault config env h hp]
    exact ⟨rfl, by simp, Or.inr (Or.inl ⟨h, hp, rfl⟩)⟩
  · rw [handleRequest_dial_error config env mc h hp hd]
    exact ⟨rfl, by simp, Or.inr (Or.inr (Or.inl ⟨h, hd, rfl⟩))⟩
  · rw [handleRequest_relayed config env mc h hp hd]
    exact ⟨rfl, by simp, Or.inr (Or.inr (Or.inr ⟨h, hd, rfl⟩))⟩

/-! ## Facts about the relay loops -/

/-- A read into a buffer whose length is within its capacity: the buffer keeps
its length and capacity, and `buf[:n]` holds exactly the bytes stored. -/
theorem connRead_sliceTo (buf : Slice) (r : ReadResult) (h : buf.len ≤ buf.backing.length) :
    (connRead buf r).1.len = buf.len ∧
    (connRead buf r).1.backing.length = buf.backing.length ∧
    (connRead buf r).2 = (r.data.take buf.len).length ∧
    ∃ out, (connRead buf r).1.sliceTo (connRead buf r).2 = some out ∧
      out.toList = r.data.take buf.len := by
  have hl : (r.data.take buf.len).length ≤ buf.len := by simp [List.length_take]
  refine ⟨rfl, ?_, rfl, ?_⟩
  · simp only [connRead, List.length_append, List.length_drop]
    omega
  · refine ⟨⟨(connRead buf r).1.backing, (connRead buf r).2⟩, ?_, ?_⟩
    · simp only [Slice.sliceTo, Slice.slice, Slice.cap, connRead, List.length_append,
        List.length_drop, List.drop_zero, Nat.sub_zero, Nat.zero_le, true_and]
      rw [if_pos (by omega)]
    · simp [Slice.toList, connRead]

/-- The copy loop started at round `i` with the first `i` rounds in its trace
runs to the first failing read at round `k` and returns there. -/
theorem copyLoop_runs (src dst : Conn) (reads : Nat → ReadResult) (writeErr : Nat → Bool)
    (k : Nat) (hk : (reads k).err = true) (hok : ∀ j, j < k → (reads j).err = false) :
    ∀ (d fuel i : Nat) (buf : Slice) (t0 : List Event), i + d = k → d < fuel →
      buf.len = bufSize → buf.backing.length = bufSize →
      copyLoop src dst reads writeErr fuel i buf (t0 ++ copied src dst reads writeErr i) =
        some (t0 ++ copied src dst reads writeErr k ++
          [Event.read src ((reads k).data.take bufSize).length true], Exit.returned) := by
  intro d
  induction d with
  | zero =>
    intro fuel i buf t0 hi hf hlen hcap
    have hik : i = k := by omega
    subst hik
    obtain ⟨f, rfl⟩ : ∃ f, fuel = f + 1 := ⟨fuel - 1, by omega⟩
    obtain ⟨_, _, h3, _⟩ := connRead_sliceTo buf (reads i) (by omega)
    simp only [copyLoop, hk, if_true, h3, hlen]
  | succ d ih =>
    intro fuel i buf t0 hi hf hlen hcap
    obtain ⟨f, rfl⟩ : ∃ f, fuel = f + 1 := ⟨fuel - 1, by omega⟩
    have hri : (reads i).err = false := hok i (by omega)
    obtain ⟨h1, h2, h3, out, h4, h5⟩ := connRead_sliceTo buf (reads i) (by omega)
    simp only [copyLoop, hri]
    rw [h4]
    simp only [h5, h3, hlen]
    have := ih f (i + 1) (connRead buf (reads i)).1 t0 (by omega) (by omega)
      (by rw [h1, hlen]) (by rw [h2, hcap])
    simpa [copied, List.append_assoc] using this

set_option maxRecDepth 100000 in
/-- C5 (as stated, refuted): in `handleRead` the first write fails, and the
loop goes on: it reads again, writes again, and ends only at the failing third
read. The trace does not stop at its first failing `Read` or `Write`. -/
theorem handleRead_goes_on_after_failed_write :
    handleRead (fun i => if i < 2 then ⟨[7], false⟩ else ⟨[], true⟩) (fun _ => true) 5 =
      some ([Event.read Conn.client 1 false, Event.write Conn.conn [7] true,
        Event.read Conn.client 1 false, Event.write Conn.conn [7] true,
        Event.read Conn.client 0 true,
        Event.wgDone, Event.close Conn.client, Event.close Conn.conn], Exit.returned) ∧
    stopsAtFirstFailure [Event.read Conn.client 1 false, Event.write Conn.conn [7] true,
        Event.read Conn.client 1 false, Event.write Conn.conn [7] true,
        Event.read Conn.client 0 true,
        Event.wgDone, Event.close Conn.client, Event.close Conn.conn] = false := by
  decide

/-- C5 (amended): in each relay copy loop the first failing read ends the
loop, whatever the writes did. When read number `k` is the first to fail, any
bound above `k` lets `handleRead` and `handleWrite` return; the trace is `k`
rounds of one successful read followed by one write of the bytes read, then
the failing read, then `wg.Done()` and the closing of both connections, with
no read or write after the failing read. -/
theorem relay_loops_end_at_first_failed_read (reads : Nat → ReadResult)
    (writeErr : Nat → Bool) (k fuel : Nat) (hk : (reads k).err = true)
    (hok : ∀ j, j < k → (reads j).err = false) (hfuel : k < fuel) :
    handleRead reads writeErr fuel =
      some (copied Conn.client Conn.conn reads writeErr k ++
        [Event.read Conn.client ((reads k).data.take bufSize).length true,
          Event.wgDone, Event.close Conn.client, Event.close Conn.conn], Exit.returned) ∧
    handleWrite reads writeErr fuel =
      some (copied Conn.conn Conn.client reads writeErr k ++
        [Event.read Conn.conn ((reads k).data.take bufSize).length true,
          Event.wgDone, Event.close Conn.client, Event.close Conn.conn], Exit.returned) := by
  have hr := copyLoop_runs Conn.client Conn.conn reads writeErr k hk hok k fuel 0
    (Slice.make bufSize) [] (by omega) hfuel rfl (by simp [Slice.make])
  have hw := copyLoop_runs Conn.conn Conn.client reads writeErr k hk hok k fuel 0
    (Slice.make bufSize) [] (by omega) hfuel rfl (by simp [Slice.make])
  simp only [copied, List.append_nil, List.nil_append] at hr hw
  constructor
  · simp [handleRead, hr, relayDeferred]
  · simp [handleWrite, hw, relayDeferred]

set_option maxRecDepth 100000 in
/-- Witness of `relay_loops_end_at_first_failed_read`: two successful reads,
every write failing, the third read failing. -/
theorem relay_loops_end_at_first_failed_read_witness :
    handleRead (fun i => if i < 2 then ⟨[7], false⟩ else ⟨[], true⟩) (fun _ => true) 3 =
      some (copied Conn.client Conn.conn
          (fun i => if i < 2 then ⟨[7], false⟩ else ⟨[], true⟩) (fun _ => true) 2 ++
        [Event.read Conn.client 0 true,
          Event.wgDone, Event.close Conn.client, Event.close Conn.conn], Exit.returned) ∧
    handleWrite (fun i => if i < 2 then ⟨[7], false⟩ else ⟨[], true⟩) (fun _ => true) 3 =
      some (copied Conn.conn Conn.client
          (fun i => if i < 2 then ⟨[7], false⟩ else ⟨[], true⟩) (fun _ => true) 2 ++
        [Event.read Conn.conn 0 true,
          Event.wgDone, Event.close Conn.client, Event.close Conn.conn], Exit.returned) :=
  relay_loops_end_at_first_failed_read
    (fun i => if i < 2 then ⟨[7], false⟩ else ⟨[], true⟩) (fun _ => true) 2 3
    (by decide) (by decide) (by decide)

/-! ## Facts about loading the configuration -/

theorem applyStores_append (c : Config) (a b : List Store) :
    applyStores c (a ++ b) = applyStores (applyStores c a) b := by
  simp [applyStores, List.foldl_append]

/-- Storing a list of entries into a non-nil map puts them in front of the
entries it had, the last one stored first. -/
theorem applyStores_setHost (es l : List (GoString × GoString)) (c : Config)
    (h : c.Hosts = some l) :
    applyStores c (es.map (fun e => Store.setHost e.1 e.2)) =
      { c with Hosts := some (es.reverse ++ l) } := by
  induction es generalizing c l with
  | nil =>
    cases c
    simp only [applyStores, List.map_nil, List.foldl_nil, List.reverse_nil, List.nil_append]
    simp only at h
    rw [h]
  | cons e es ih =>
    have := ih ((e.1, e.2) :: l) (Store.apply c (Store.setHost e.1 e.2))
      (by simp [Store.apply, GoMap.set, h])
    simp only [applyStores, List.map_cons, List.foldl_cons] at this ⊢
    rw [this]
    simp [Store.apply, List.reverse_cons, List.append_assoc]

/-- Decoding a JSON object of strings into `Hosts`: the map is allocated if it
was nil, and the entries are added to those it had. -/
theorem applyStores_decode_hosts (es : List (GoString × GoString)) (c : Config) :
    applyStores c (decodeField Field.hosts
        (Json.object (es.map (fun e => (e.1, Json.string e.2))))).1 =
      { c with Hosts := some (es.reverse ++ c.Hosts.getD []) } ∧
    (decodeField Field.hosts
        (Json.object (es.map (fun e => (e.1, Json.string e.2))))).2 = false := by
  constructor
  · have hmap : (es.map (fun e => (e.1, Json.string e.2))).map
        (fun m => (decodeHostEntry m).1) = es.map (fun e => Store.setHost e.1 e.2) := by
      simp [List.map_map, Function.comp_def, decodeHostEntry]
    simp only [decodeField, hmap]
    change applyStores (Store.apply c Store.makeHostsIfNil) _ = _
    cases hH : c.Hosts with
    | none =>
      rw [applyStores_setHost es [] _ (by simp [Store.apply, hH])]
      simp [Store.apply, hH]
    | some l =>
      rw [applyStores_setHost es l _ (by simp [Store.apply, hH])]
      simp [Store.apply, hH]
  · simp only [decodeField, List.any_eq_false]
    intro m hm
    obtain ⟨e, _, rfl⟩ := List.mem_map.mp hm
    simp [decodeHostEntry]

/-- A key that is not among the entries put in front is looked up in the old
entries. -/
theorem lookup_append_of_not_mem (k : GoString) (a l : List (GoString × GoString))
    (h : k ∉ a.map Prod.fst) : (a ++ l).lookup k = l.lookup k := by
  induction a with
  | nil => rfl
  | cons e a ih =>
    obtain ⟨x, y⟩ := e
    simp only [List.map_cons, List.mem_cons, not_or] at h
    have hne : (k == x) = false := by simpa using h.1
    simp only [List.cons_append, List.lookup, hne]
    exact ih h.2

theorem applyStores_nil (c : Config) : applyStores c [] = c := rfl

theorem applyStores_one (c : Config) (x : Store) : applyStores c [x] = x.apply c := rfl

/-- `Unmarshal` on an object, member by member. -/
theorem unmarshal_object (ms : List (GoString × Json)) (c : Config) :
    unmarshal (some (Json.object ms)) c =
      (applyStores c (ms.map (fun m => (decodeMember m).1)).flatten,
        if ms.any (fun m => (decodeMember m).2) then some LoadError.typeMismatch else none) :=
  rfl

theorem decodeMember_port (z : Int) (hz : -(2 : Int) ^ 63 ≤ z ∧ z < (2 : Int) ^ 63) :
    decodeMember (portKey, Json.number (JsonNumber.int z)) = ([Store.setPort z], false) := by
  have hp : fieldOf portKey = some Field.port := by decide
  simp only [decodeMember, hp, decodeField]
  rw [if_pos hz]

theorem decodeMember_default (s : GoString) :
    decodeMember (defaultKey, Json.string s) = ([Store.setDefault s], false) := by
  have hd : fieldOf defaultKey = some Field.default := by decide
  simp only [decodeMember, hd, decodeField]

theorem decodeMember_hosts_stores (es : List (GoString × GoString)) (c : Config) :
    applyStores c (decodeMember
        (hostsKey, Json.object (es.map (fun e => (e.1, Json.string e.2))))).1 =
      { c with Hosts := some (es.reverse ++ c.Hosts.getD []) } := by
  have hh : fieldOf hostsKey = some Field.hosts := by decide
  simp only [decodeMember, hh]
  exact (applyStores_decode_hosts es c).1

theorem decodeMember_hosts_ok (es : List (GoString × GoString)) :
    (decodeMember (hostsKey, Json.object (es.map (fun e => (e.1, Json.string e.2))))).2 =
      false := by
  have hh : fieldOf hostsKey = some Field.hosts := by decide
  simp only [decodeMember, hh]
  exact (applyStores_decode_hosts es ⟨0, none, []⟩).2

theorem applyStores_cons (c : Config) (x : Store) (xs : List Store) :
    applyStores c (x :: xs) = applyStores (x.apply c) xs := rfl

/-- C6 (as stated, refuted): the document `{"hosts": {"b": "B"}, "default":
"e", "port": 25565.5}` has a non-integer port, so `loadConfig` returns an
error; all the same `Hosts` has gained the entry for `b` and `Default` has
changed from `d` to `e`. -/
theorem loadConfig_type_error_changes_config :
    loadConfig
        (FileResult.content (some (Json.object
          [(hostsKey, Json.object [([98], Json.string [66])]),
           (defaultKey, Json.string [101]),
           (portKey, Json.number JsonNumber.nonInt)])))
        ⟨25565, some [([97], [65])], [100]⟩ =
      (⟨25565, some [([98], [66]), ([97], [65])], [101]⟩, some LoadError.typeMismatch) ∧
    (⟨25565, some [([98], [66]), ([97], [65])], [101]⟩ : Config) ≠
      ⟨25565, some [([97], [65])], [100]⟩ := by
  decide

/-- C6 (amended): a reload attempt that fails because the file cannot be
opened, cannot be read, or is no valid JSON leaves `Port`, `Hosts` and
`Default` as they were, and `loadConfig` returns an error; these are all the
errors of `loadConfig` other than a type mismatch, and after any of them the
configuration is the one before. The type mismatch is excluded: there
`loadConfig` can return its error after having changed the configuration, as
it does, for every configuration, on a document with a string `default`
followed by a non-integer `port`, whose `default` it has stored. -/
theorem loadConfig_failure_keeps_config (file : FileResult) (config : Config)
    (h : file = FileResult.openError ∨ file = FileResult.readError ∨
      file = FileResult.content none) :
    (loadConfig file config).1 = config ∧
    (loadConfig file config).2 ≠ none ∧
    reload file config = config ∧
    (∀ (f : FileResult) (e : LoadError), (loadConfig f config).2 = some e →
      e ≠ LoadError.typeMismatch →
      (f = FileResult.openError ∨ f = FileResult.readError ∨ f = FileResult.content none) ∧
        (loadConfig f config).1 = config) ∧
    ∀ s : GoString,
      loadConfig (FileResult.content (some (Json.object
          [(defaultKey, Json.string s), (portKey, Json.number JsonNumber.nonInt)]))) config =
        (⟨config.Port, config.Hosts, s⟩, some LoadError.typeMismatch) := by
  refine ⟨?_, ?_, ?_, ?_, ?_⟩
  · rcases h with h | h | h <;> subst h <;> rfl
  · rcases h with h | h | h <;> subst h <;> simp [loadConfig, unmarshal]
  · rcases h with h | h | h <;> subst h <;> rfl
  · intro f e he hne
    cases f with
    | openError => exact ⟨Or.inl rfl, rfl⟩
    | readError => exact ⟨Or.inr (Or.inl rfl), rfl⟩
    | content doc =>
      cases doc with
      | none => exact ⟨Or.inr (Or.inr rfl), rfl⟩
      | some j =>
        exfalso
        simp only [loadConfig, unmarshal] at he
        split at he
        · exact hne (Option.some.inj he).symm
        · exact Option.noConfusion he
  · intro s
    have hp : fieldOf portKey = some Field.port := by decide
    have hd : fieldOf defaultKey = some Field.default := by decide
    simp [loadConfig, unmarshal, decodeDocument, decodeMember, hp, hd, decodeField,
      applyStores, Store.apply]

/-- Witness of `loadConfig_failure_keeps_config`: bytes that are no valid
JSON, and the document with `"default": "e"`. -/
theorem loadConfig_failure_keeps_config_witness :
    (loadConfig (FileResult.content none) ⟨25565, some [([97], [65])], [100]⟩).1 =
      ⟨25565, some [([97], [65])], [100]⟩ ∧
    (loadConfig (FileResult.content none) ⟨25565, some [([97], [65])], [100]⟩).2 ≠ none ∧
    reload (FileResult.content none) ⟨25565, some [([97], [65])], [100]⟩ =
      ⟨25565, some [([97], [65])], [100]⟩ ∧
    loadConfig (FileResult.content (some (Json.object
        [(defaultKey, Json.string [101]), (portKey, Json.number JsonNumber.nonInt)])))
        ⟨25565, some [([97], [65])], [100]⟩ =
      (⟨25565, some [([97], [65])], [101]⟩, some LoadError.typeMismatch) :=
  have h := loadConfig_failure_keeps_config (FileResult.content none)
    ⟨25565, some [([97], [65])], [100]⟩ (Or.inr (Or.inr rfl))
  ⟨h.1, h.2.1, h.2.2.1, h.2.2.2.2 [101]⟩

/-- C8 (as stated, refuted): the table routes `a` to `A` and has default `d`;
the new document `{"port": 25566, "hosts": {"b": "B"}}` has no
entry for `a` and no `default`. `loadConfig` succeeds, `a` is still a key of
`Hosts` and is still routed to `A`, and `Default` is still `d`. -/
theorem loadConfig_keeps_old_hosts_and_default :
    loadConfig (FileResult.content (some (Document.toJson
        ⟨some 25566, some [([98], [66])], none⟩)))
        ⟨25565, some [([97], [65])], [100]⟩ =
      (⟨25566, some [([98], [66]), ([97], [65])], [100]⟩, none) ∧
    [97] ∈ GoMap.keys (some [([98], [66]), ([97], [65])]) ∧
    routeHost ⟨25566, some [([98], [66]), ([97], [65])], [100]⟩ [97] = [65] := by
  decide

/-- C8 (amended): a successful reload is a field-by-field update of the
running configuration. For a document of the documented shape with an integer
port that fits an `int`, `loadConfig` succeeds; `Port` and `Default` take the
document's value when the document has the field and keep their previous
value when it has not; `Hosts` is unchanged when the document has no `hosts`,
and otherwise is the previous map (allocated if nil) with the document's
entries stored into it: a hostname of the document is routed as the document
says, and a hostname absent from the document keeps its previous entry. -/
theorem loadConfig_updates_field_by_field (d : Document) (config : Config)
    (hport : ∀ z, d.port = some z → -(2 : Int) ^ 63 ≤ z ∧ z < (2 : Int) ^ 63) :
    loadConfig (FileResult.content (some d.toJson)) config =
      (⟨d.port.getD config.Port,
        (match d.hosts with
          | none => config.Hosts
          | some es => some (es.reverse ++ config.Hosts.getD [])),
        d.default.getD config.Default⟩, none) ∧
    (∀ es k v, d.hosts = some es → es.reverse.lookup k = some v →
      (loadConfig (FileResult.content (some d.toJson)) config).1.Hosts.find? k = some v) ∧
    (∀ es k, d.hosts = some es → k ∉ es.map Prod.fst →
      (loadConfig (FileResult.content (some d.toJson)) config).1.Hosts.find? k =
        config.Hosts.find? k) := by
  have main : loadConfig (FileResult.content (some d.toJson)) config =
      (⟨d.port.getD config.Port,
        (match d.hosts with
          | none => config.Hosts
          | some es => some (es.reverse ++ config.Hosts.getD [])),
        d.default.getD config.Default⟩, none) := by
    obtain ⟨port, hosts, dflt⟩ := d
    cases port with
    | none =>
      cases hosts with
      | none =>
        cases dflt with
        | none => simp [loadConfig, unmarshal_object, Document.toJson, applyStores]
        | some s =>
          simp [loadConfig, unmarshal_object, Document.toJson, applyStores,
            decodeMember_default, Store.apply]
      | some es =>
        cases dflt with
        | none =>
          simp [loadConfig, unmarshal_object, Document.toJson, applyStores_append,
            decodeMember_hosts_stores, decodeMember_hosts_ok, applyStores_cons, applyStores_nil]
        | some s =>
          simp [loadConfig, unmarshal_object, Document.toJson, applyStores_append,
            decodeMember_hosts_stores, decodeMember_hosts_ok, applyStores_cons, decodeMember_default, applyStores_nil, applyStores_one,
            Store.apply]
    | some z =>
      have hz := hport z rfl
      cases hosts with
      | none =>
        cases dflt with
        | none =>
          simp [loadConfig, unmarshal_object, Document.toJson, applyStores,
            decodeMember_port z hz, Store.apply]
        | some s =>
          simp [loadConfig, unmarshal_object, Document.toJson, applyStores,
            decodeMember_port z hz, decodeMember_default, Store.apply]
      | some es =>
        cases dflt with
        | none =>
          simp [loadConfig, unmarshal_object, Document.toJson, applyStores_append,
            decodeMember_port z hz, decodeMember_hosts_stores, decodeMember_hosts_ok, applyStores_cons, applyStores_nil, applyStores_one,
            Store.apply]
        | some s =>
          simp [loadConfig, unmarshal_object, Document.toJson, applyStores_append,
            decodeMember_port z hz, decodeMember_hosts_stores, decodeMember_hosts_ok, applyStores_cons, decodeMember_default, applyStores_nil,
            applyStores_one, Store.apply]
  refine ⟨main, ?_, ?_⟩
  · intro es k v hes hk
    rw [main]
    simp only [hes, GoMap.find?, List.lookup_append, hk, Option.or_some]
  · intro es k hes hk
    rw [main]
    simp only [hes, GoMap.find?]
    rw [lookup_append_of_not_mem k es.reverse _ (by simpa using hk)]
    cases config.Hosts <;> simp [GoMap.find?]

/-- Witness of `loadConfig_updates_field_by_field`: the table routes `a` to
`A`; the document has port 25566 and the single host `b`, and no default. -/
theorem loadConfig_updates_field_by_field_witness :
    loadConfig (FileResult.content (some (Document.toJson
        ⟨some 25566, some [([98], [66])], none⟩)))
        ⟨25565, some [([97], [65])], [100]⟩ =
      (⟨25566, some [([98], [66]), ([97], [65])], [100]⟩, none) ∧
    (loadConfig (FileResult.content (some (Document.toJson
        ⟨some 25566, some [([98], [66])], none⟩)))
        ⟨25565, some [([97], [65])], [100]⟩).1.Hosts.find? [98] = some [66] ∧
    (loadConfig (FileResult.content (some (Document.toJson
        ⟨some 25566, some [([98], [66])], none⟩)))
        ⟨25565, some [([97], [65])], [100]⟩).1.Hosts.find? [97] =
      GoMap.find? (some [([97], [65])]) [97] :=
  have h := loadConfig_updates_field_by_field ⟨some 25566, some [([98], [66])], none⟩
    ⟨25565, some [([97], [65])], [100]⟩
    (by intro z hz; cases hz; decide)
  ⟨h.1, h.2.1 [([98], [66])] [98] [66] rfl (by decide),
    h.2.2 [([98], [66])] [97] rfl (by decide)⟩

/-! ## A reload interleaved with a routing decision -/

/-- C9 (as stated, refuted): the old table has no hosts and default `o`; the
reload stores the host `a` with address `A` and then the default `n`. A
handler looking up `a` that reads `config.Hosts` before the reload and
`config.Default` after it decides `n`: neither the decision `o` of the old
table nor the decision `A` of the new one. -/
theorem interleavedRoute_mixes_versions :
    (decodeDocument (Document.toJson ⟨none, some [([97], [65])], some [110]⟩)).1 =
      [Store.makeHostsIfNil, Store.setHost [97] [65], Store.setDefault [110]] ∧
    interleavedRoute ⟨25565, some [], [111]⟩
      [Store.makeHostsIfNil, Store.setHost [97] [65], Store.setDefault [110]] 0 3 [97] =
        [110] ∧
    routeHost ⟨25565, some [], [111]⟩ [97] = [111] ∧
    routeHost (applyStores ⟨25565, some [], [111]⟩
      [Store.makeHostsIfNil, Store.setHost [97] [65], Store.setDefault [110]]) [97] =
        [65] := by
  decide

/-- C9 (amended): with the reload's stores and the handler's two reads
interleaved in any order that keeps the handler's own order, the decision is
`Hosts[host]` of the configuration as it stands at the read of `config.Hosts`
when `host` is a key there, and otherwise `Default` as it stands at the read
of `config.Default`. When no store falls between the two reads it is the
decision of the configuration at that moment; it is the decision of the
complete old table when no store comes before the second read, and of the
complete new table when every store comes before the first. -/
theorem interleavedRoute_decision (old : Config) (stores : List Store) (i j : Nat)
    (host : GoString) (hij : i ≤ j) :
    interleavedRoute old stores i j host =
      (if host ∈ (applyStores old (stores.take i)).Hosts.keys
        then ((applyStores old (stores.take i)).Hosts.get host).1
        else (applyStores old (stores.take j)).Default) ∧
    (i = j → interleavedRoute old stores i j host =
      routeHost (applyStores old (stores.take i)) host) ∧
    (j = 0 → interleavedRoute old stores i j host = routeHost old host) ∧
    (stores.length ≤ i → interleavedRoute old stores i j host =
      routeHost (applyStores old stores) host) := by
  refine ⟨?_, ?_, ?_, ?_⟩
  · have hm := GoMap.mem_keys_iff (applyStores old (stores.take i)).Hosts host
    cases hf : (applyStores old (stores.take i)).Hosts.find? host with
    | none =>
      have hk : host ∉ (applyStores old (stores.take i)).Hosts.keys := by rw [hm, hf]; simp
      simp [interleavedRoute, GoMap.get, hf, hk]
    | some v =>
      have hk : host ∈ (applyStores old (stores.take i)).Hosts.keys := by rw [hm, hf]; simp
      simp [interleavedRoute, GoMap.get, hf, hk]
  · intro h
    subst h
    rfl
  · intro h
    have hi : i = 0 := by omega
    subst h
    subst hi
    rfl
  · intro h
    have h1 : stores.take i = stores := List.take_of_length_le h
    have h2 : stores.take j = stores := List.take_of_length_le (by omega)
    simp only [interleavedRoute, h1, h2]
    rfl

/-- Witness of `interleavedRoute_decision`: the reload of
`interleavedRoute_mixes_versions`, the first read before it and the second
after it. -/
theorem interleavedRoute_decision_witness :
    interleavedRoute ⟨25565, some [], [111]⟩
        [Store.makeHostsIfNil, Store.setHost [97] [65], Store.setDefault [110]] 0 3 [97] =
      (if [97] ∈ (applyStores ⟨25565, some [], [111]⟩
          (List.take 0
            [Store.makeHostsIfNil, Store.setHost [97] [65], Store.setDefault [110]])).Hosts.keys
        then ((applyStores ⟨25565, some [], [111]⟩
          (List.take 0 [Store.makeHostsIfNil, Store.setHost [97] [65],
            Store.setDefault [110]])).Hosts.get [97]).1
        else (applyStores ⟨25565, some [], [111]⟩
          (List.take 3 [Store.makeHostsIfNil, Store.setHost [97] [65],
            Store.setDefault [110]])).Default) :=
  (interleavedRoute_decision ⟨25565, some [], [111]⟩
    [Store.makeHostsIfNil, Store.setHost [97] [65], Store.setDefault [110]] 0 3 [97]
    (by decide)).1

end McGateway
